import Mathlib

/-!
# Verification of the Privara encrypted-reputation engine

A shallow embedding of the Privara repository's core logic:

* the FHEVM `Privara` contract (submission ledger, per-identity state
  machine, baseline reputation circuit, result accessors, reset) —
  modelled at the plaintext level of its `euint32` ciphertexts, with
  32-bit wraparound made explicit;
* the JS computation engine's extended authenticity formula with its
  guarded follower ratio;
* the frontend hex wire-payload encoder/decoder;
* the frontend `validateMetrics` input validator.

Machine integers are `Nat`/`Int` with explicit `% 2^32` where the source
type is `euint32`.
-/

namespace Privara

/-- Identities (EVM addresses) are opaque partition keys; we model them
as naturals. -/
abbrev Addr := Nat

/-- The `euint32` modulus. -/
def u32 : Nat := 2 ^ 32

/-- Plaintext semantics of `FHE.add` on `euint32`: wrapping addition. -/
def fheAdd (a b : Nat) : Nat := (a + b) % u32

/-- Plaintext semantics of `FHE.sub` on `euint32`: wrapping subtraction. -/
def fheSub (a b : Nat) : Nat := (a % u32 + (u32 - b % u32)) % u32

/-- Plaintext semantics of `FHE.div` by a public constant: truncating
division. -/
def fheDiv (a d : Nat) : Nat := a / d

/-- The contract's revert reasons, as a typed error enum
(`require(..., msg)` sites of the `Privara` contract). -/
inductive PrivaraError where
  | alreadySubmitted
  | noMetricsSubmitted
  | alreadyComputed
  | resultNotReady
  | invalidIndex
  deriving DecidableEq, Repr

/-- The literal revert string attached to each error in the source. -/
def revertReason : PrivaraError → String
  | .alreadySubmitted => "Already submitted"
  | .noMetricsSubmitted => "No metrics submitted"
  | .alreadyComputed => "Already computed"
  | .resultNotReady => "Result not ready"
  | .invalidIndex => "Invalid index"

/-- Storage of the `Privara` contract, at the plaintext level of its
ciphertexts: `encryptedMetrics` / `encryptedResults` are the
address-keyed `euint32[8]` / `euint32[5]` mappings, `hasSubmitted` /
`resultReady` the two boolean flag mappings.  Solidity mappings default
to zero / false, which `initialState` captures. -/
@[ext]
structure ContractState where
  encryptedMetrics : Addr → Fin 8 → Nat
  encryptedResults : Addr → Fin 5 → Nat
  hasSubmitted : Addr → Bool
  resultReady : Addr → Bool

/-- Freshly deployed contract: all mappings at their Solidity defaults. -/
def initialState : ContractState where
  encryptedMetrics := fun _ _ => 0
  encryptedResults := fun _ _ => 0
  hasSubmitted := fun _ => false
  resultReady := fun _ => false

/-- `submitMetrics(metrics, inputProof)`: requires `!hasSubmitted`,
stores the eight external `euint32` inputs (32-bit values), sets the
submitted flag.  A revert is an `Except.error`; ledger transaction
semantics roll back all writes on revert. -/
def submitMetrics (s : ContractState) (sender : Addr) (m : Fin 8 → Nat) :
    Except PrivaraError ContractState :=
  if s.hasSubmitted sender then .error .alreadySubmitted
  else .ok { s with
    encryptedMetrics :=
      Function.update s.encryptedMetrics sender (fun i => m i % u32)
    hasSubmitted := Function.update s.hasSubmitted sender true }

/-- The baseline reputation circuit applied to a stored metric vector:
`[100 - bot, engagement, (posting + quality) / 2, bot, growth]`, in
`euint32` arithmetic. -/
def baselineScores (m : Fin 8 → Nat) : Fin 5 → Nat :=
  ![fheSub 100 (m 4), m 2, fheDiv (fheAdd (m 5) (m 6)) 2, m 4, m 7]

/-- `computeReputation()`: requires `hasSubmitted && !resultReady`, runs
the baseline circuit over the caller's stored metrics, stores the five
scores and sets the ready flag. -/
def computeReputation (s : ContractState) (sender : Addr) :
    Except PrivaraError ContractState :=
  if !(s.hasSubmitted sender) then .error .noMetricsSubmitted
  else if s.resultReady sender then .error .alreadyComputed
  else .ok { s with
    encryptedResults :=
      Function.update s.encryptedResults sender
        (baselineScores (s.encryptedMetrics sender))
    resultReady := Function.update s.resultReady sender true }

/-- `getResult(index)`: requires `resultReady`, then `index < 5`;
returns one stored score (view — no state change). -/
def getResult (s : ContractState) (sender : Addr) (index : Nat) :
    Except PrivaraError Nat :=
  if !(s.resultReady sender) then .error .resultNotReady
  else if h : index < 5 then .ok (s.encryptedResults sender ⟨index, h⟩)
  else .error .invalidIndex

/-- `getAllResults()`: requires `resultReady`; returns the stored
five-score vector (view — no state change). -/
def getAllResults (s : ContractState) (sender : Addr) :
    Except PrivaraError (Fin 5 → Nat) :=
  if !(s.resultReady sender) then .error .resultNotReady
  else .ok (s.encryptedResults sender)

/-- `hasUserSubmitted(user)` view. -/
def hasUserSubmitted (s : ContractState) (user : Addr) : Bool :=
  s.hasSubmitted user

/-- `isResultReady(user)` view. -/
def isResultReady (s : ContractState) (user : Addr) : Bool :=
  s.resultReady user

/-- `reset()`: unconditionally clears the caller's two flags.  Note the
source clears only `hasSubmitted` and `resultReady`; the
`encryptedMetrics` and `encryptedResults` storage slots are left as
they are. -/
def reset (s : ContractState) (sender : Addr) : ContractState :=
  { s with
    hasSubmitted := Function.update s.hasSubmitted sender false
    resultReady := Function.update s.resultReady sender false }

/-- Ledger transaction semantics: a reverted call leaves the pre-state. -/
def applyTx (s : ContractState) (r : Except PrivaraError ContractState) :
    ContractState :=
  match r with
  | .ok s' => s'
  | .error _ => s

/-- The per-identity abstract state of the spec's state machine, read
off the two boolean flags.  `illegal` is the flag combination
(result ready, nothing submitted) that the spec says must never occur. -/
inductive UserPhase where
  | empty
  | submitted
  | computed
  | illegal
  deriving DecidableEq, Repr

/-- Abstraction function from the stored flags to the spec phase. -/
def phase (s : ContractState) (u : Addr) : UserPhase :=
  match s.hasSubmitted u, s.resultReady u with
  | false, false => .empty
  | true, false => .submitted
  | true, true => .computed
  | false, true => .illegal

/-- States reachable from a fresh deployment by any sequence of
(successful) ledger operations; failed calls revert and leave the state
unchanged, so they need no step. -/
inductive Reachable : ContractState → Prop where
  | init : Reachable initialState
  | submit {s s' : ContractState} {u : Addr} {m : Fin 8 → Nat} :
      Reachable s → submitMetrics s u m = .ok s' → Reachable s'
  | compute {s s' : ContractState} {u : Addr} :
      Reachable s → computeReputation s u = .ok s' → Reachable s'
  | reset {s : ContractState} {u : Addr} :
      Reachable s → Reachable (reset s u)

/-- The full per-identity record (stored metrics, stored results, the
two flags): the spec's `UserRecord` content. -/
def userRecord (s : ContractState) (u : Addr) :
    (Fin 8 → Nat) × (Fin 5 → Nat) × Bool × Bool :=
  (s.encryptedMetrics u, s.encryptedResults u, s.hasSubmitted u, s.resultReady u)

/-- The end-to-end scenario state of the validated test corpus: identity
`0` submits `(5000, 2000, 75, 730, 15, 85, 90, 80)` into a fresh
contract. -/
def demoSubmitState : ContractState :=
  applyTx initialState
    (submitMetrics initialState 0 ![5000, 2000, 75, 730, 15, 85, 90, 80])

/-- The scenario state after `computeReputation` by identity `0`. -/
def demoComputedState : ContractState :=
  applyTx demoSubmitState (computeReputation demoSubmitState 0)

/-- A state where identity `0` submitted an out-of-range
`bot_likelihood` of `150` (no range validation stops it). -/
def wrapSubmitState : ContractState :=
  applyTx initialState
    (submitMetrics initialState 0 ![5000, 2000, 75, 730, 150, 85, 90, 80])

lemma submitMetrics_ok_iff {s s' : ContractState} {u : Addr} {m : Fin 8 → Nat} :
    submitMetrics s u m = .ok s' ↔
      s.hasSubmitted u = false ∧
      s' = { s with
        encryptedMetrics :=
          Function.update s.encryptedMetrics u (fun i => m i % u32)
        hasSubmitted := Function.update s.hasSubmitted u true } := by
  unfold submitMetrics
  by_cases h : s.hasSubmitted u <;> simp [h, eq_comm]

lemma computeReputation_ok_iff {s s' : ContractState} {u : Addr} :
    computeReputation s u = .ok s' ↔
      s.hasSubmitted u = true ∧ s.resultReady u = false ∧
      s' = { s with
        encryptedResults :=
          Function.update s.encryptedResults u
            (baselineScores (s.encryptedMetrics u))
        resultReady := Function.update s.resultReady u true } := by
  unfold computeReputation
  by_cases h1 : s.hasSubmitted u <;> by_cases h2 : s.resultReady u <;>
    simp [h1, h2, eq_comm]

/-- Invariant of reachable states: the result-ready flag implies the
submitted flag (the illegal flag combination never arises). -/
lemma reachable_ready_imp_submitted {s : ContractState} (hs : Reachable s)
    (u : Addr) : s.resultReady u = true → s.hasSubmitted u = true := by
  induction hs with
  | init => simp [initialState]
  | @submit s s' v m _ hok ih =>
      obtain ⟨hflag, rfl⟩ := submitMetrics_ok_iff.mp hok
      intro h
      by_cases huv : u = v
      · subst huv; simp [Function.update_same]
      · simpa [Function.update_noteq huv] using ih h
  | @compute s s' v _ hok ih =>
      obtain ⟨hsub, hrdy, rfl⟩ := computeReputation_ok_iff.mp hok
      intro h
      by_cases huv : u = v
      · subst huv; exact hsub
      · exact ih (by simpa [Function.update_noteq huv] using h)
  | @reset s v _ ih =>
      intro h
      by_cases huv : u = v
      · subst huv; simp [Privara.reset, Function.update_same] at h
      · have hih := ih (by simpa [Privara.reset, Function.update_noteq huv] using h)
        simpa [Privara.reset, Function.update_noteq huv] using hih

lemma phase_empty_iff {s : ContractState} {u : Addr} :
    phase s u = .empty ↔ s.hasSubmitted u = false ∧ s.resultReady u = false := by
  cases h1 : s.hasSubmitted u <;> cases h2 : s.resultReady u <;>
    simp [phase, h1, h2]

lemma phase_submitted_iff {s : ContractState} {u : Addr} :
    phase s u = .submitted ↔
      s.hasSubmitted u = true ∧ s.resultReady u = false := by
  cases h1 : s.hasSubmitted u <;> cases h2 : s.resultReady u <;>
    simp [phase, h1, h2]

lemma phase_computed_iff {s : ContractState} {u : Addr} :
    phase s u = .computed ↔
      s.hasSubmitted u = true ∧ s.resultReady u = true := by
  cases h1 : s.hasSubmitted u <;> cases h2 : s.resultReady u <;>
    simp [phase, h1, h2]

lemma phase_illegal_iff {s : ContractState} {u : Addr} :
    phase s u = .illegal ↔
      s.hasSubmitted u = false ∧ s.resultReady u = true := by
  cases h1 : s.hasSubmitted u <;> cases h2 : s.resultReady u <;>
    simp [phase, h1, h2]

/-- Arithmetic of the baseline circuit at plaintexts bounded by 100:
no 32-bit wraparound occurs. -/
lemma baselineScores_of_bounds {m : Fin 8 → Nat}
    (h4 : m 4 ≤ 100) (h5 : m 5 ≤ 100) (h6 : m 6 ≤ 100) :
    baselineScores m =
      ![100 - m 4, m 2, (m 5 + m 6) / 2, m 4, m 7] := by
  funext i
  have hu : (100 : Nat) < u32 := by norm_num [u32]
  fin_cases i
  · show fheSub 100 (m 4) = 100 - m 4
    unfold fheSub u32 at *
    have : m 4 % 2 ^ 32 = m 4 := Nat.mod_eq_of_lt (by omega)
    rw [this]
    omega
  · rfl
  · show fheDiv (fheAdd (m 5) (m 6)) 2 = (m 5 + m 6) / 2
    unfold fheDiv fheAdd u32 at *
    rw [Nat.mod_eq_of_lt (by omega)]
  · rfl
  · rfl

lemma phase_congr {s t : ContractState} {v : Addr}
    (h1 : s.hasSubmitted v = t.hasSubmitted v)
    (h2 : s.resultReady v = t.resultReady v) : phase s v = phase t v := by
  unfold phase; rw [h1, h2]

/-- C1.  Baseline-profile compute correctness: from state Submitted with
the stored percentage-like plaintexts (engagement_rate, bot_likelihood,
posting_frequency, follower_quality, growth_score) in [0,100],
`computeReputation` succeeds and stores plaintexts
`[100 - bot, engagement, floor((posting + quality)/2), bot, growth]`;
in particular the end-to-end scenario (engagement=75, bot=15,
posting=85, quality=90, growth=80) yields exactly
`{85, 75, 87, 15, 80}`, with `87.5` truncated to `87`. -/
theorem baseline_compute_correct :
    (∀ (s : ContractState) (u : Addr),
      phase s u = .submitted →
      s.encryptedMetrics u 2 ≤ 100 → s.encryptedMetrics u 4 ≤ 100 →
      s.encryptedMetrics u 5 ≤ 100 → s.encryptedMetrics u 6 ≤ 100 →
      s.encryptedMetrics u 7 ≤ 100 →
      ∃ s', computeReputation s u = .ok s' ∧
        s'.encryptedResults u =
          ![100 - s.encryptedMetrics u 4,
            s.encryptedMetrics u 2,
            (s.encryptedMetrics u 5 + s.encryptedMetrics u 6) / 2,
            s.encryptedMetrics u 4,
            s.encryptedMetrics u 7]) ∧
    computeReputation demoSubmitState 0 = .ok demoComputedState ∧
    demoComputedState.encryptedResults 0 = ![85, 75, 87, 15, 80] := by
  refine ⟨?_, rfl, by funext i; fin_cases i <;> rfl⟩
  intro s u hphase h2 h4 h5 h6 h7
  obtain ⟨hsub, hready⟩ := phase_submitted_iff.mp hphase
  refine ⟨_, computeReputation_ok_iff.mpr ⟨hsub, hready, rfl⟩, ?_⟩
  simp only [Function.update_same]
  exact baselineScores_of_bounds h4 h5 h6

/-- C1 witness: the scenario hypotheses hold concretely and the theorem
applies. -/
theorem baseline_compute_correct_witness :
    phase demoSubmitState 0 = .submitted ∧
    demoSubmitState.encryptedMetrics 0 2 ≤ 100 ∧
    ∃ s', computeReputation demoSubmitState 0 = .ok s' ∧
      s'.encryptedResults 0 =
        ![100 - demoSubmitState.encryptedMetrics 0 4,
          demoSubmitState.encryptedMetrics 0 2,
          (demoSubmitState.encryptedMetrics 0 5 +
            demoSubmitState.encryptedMetrics 0 6) / 2,
          demoSubmitState.encryptedMetrics 0 4,
          demoSubmitState.encryptedMetrics 0 7] :=
  ⟨by decide, by decide,
    baseline_compute_correct.1 demoSubmitState 0 (by decide) (by decide)
      (by decide) (by decide) (by decide) (by decide)⟩

/-- C3.  Submit rejection and atomicity: in any reachable state whose
phase is not Empty, a further submit reverts with `AlreadySubmitted`
("Already submitted") and, by transaction semantics, leaves the whole
state — in particular the identity's stored MetricVector,
ReputationVector and phase — exactly as before. -/
theorem submit_rejection_atomic (s : ContractState) (u : Addr)
    (m : Fin 8 → Nat) (hs : Reachable s) (hne : phase s u ≠ .empty) :
    submitMetrics s u m = .error .alreadySubmitted ∧
    applyTx s (submitMetrics s u m) = s ∧
    (applyTx s (submitMetrics s u m)).encryptedMetrics u =
      s.encryptedMetrics u ∧
    (applyTx s (submitMetrics s u m)).encryptedResults u =
      s.encryptedResults u ∧
    phase (applyTx s (submitMetrics s u m)) u = phase s u := by
  have hsub : s.hasSubmitted u = true := by
    by_contra h
    have h' : s.hasSubmitted u = false := by simpa using h
    have hr : s.resultReady u = false := by
      by_contra h2
      have hx := reachable_ready_imp_submitted hs u (by simpa using h2)
      simp [h'] at hx
    exact hne (phase_empty_iff.mpr ⟨h', hr⟩)
  have herr : submitMetrics s u m = .error .alreadySubmitted := by
    simp [submitMetrics, hsub]
  refine ⟨herr, ?_, ?_, ?_, ?_⟩ <;> simp [herr, applyTx]

/-- C3 witness: concrete rejected resubmission in the scenario state. -/
theorem submit_rejection_atomic_witness :
    submitMetrics demoSubmitState 0 (fun _ => 0) =
      .error .alreadySubmitted ∧
    applyTx demoSubmitState (submitMetrics demoSubmitState 0 (fun _ => 0)) =
      demoSubmitState ∧
    (applyTx demoSubmitState
        (submitMetrics demoSubmitState 0 (fun _ => 0))).encryptedMetrics 0 =
      demoSubmitState.encryptedMetrics 0 ∧
    (applyTx demoSubmitState
        (submitMetrics demoSubmitState 0 (fun _ => 0))).encryptedResults 0 =
      demoSubmitState.encryptedResults 0 ∧
    phase (applyTx demoSubmitState
        (submitMetrics demoSubmitState 0 (fun _ => 0))) 0 =
      phase demoSubmitState 0 := by
  have h3 := submit_rejection_atomic demoSubmitState 0 (fun _ => 0)
    (Reachable.submit Reachable.init rfl) (by decide)
  exact ⟨h3.1, h3.2.1, h3.2.2.1, h3.2.2.2.1, h3.2.2.2.2⟩

/-- C4 counterexample: after `reset` from the computed scenario state
the identity's phase is Empty, yet the stored MetricVector slot still
holds the submitted engagement value 75 and the stored
ReputationVector slot still holds the computed authenticity value 85 —
nothing was cleared back to the 0 of cleared storage. -/
theorem reset_does_not_clear_storage :
    (reset demoComputedState 0).encryptedMetrics 0 2 = 75 ∧
    (reset demoComputedState 0).encryptedResults 0 0 = 85 ∧
    initialState.encryptedMetrics 0 2 = 0 ∧
    initialState.encryptedResults 0 0 = 0 ∧
    phase (reset demoComputedState 0) 0 = .empty := by
  exact ⟨rfl, rfl, rfl, rfl, by decide⟩

/-- C4 amended: `reset` always succeeds from every starting state,
returns the identity's state to Empty, and is idempotent (a second
reset leaves the record identical); but it clears only the two flags —
the stored MetricVector and ReputationVector entries are left
unchanged, not cleared. -/
theorem reset_postcondition (s : ContractState) (u : Addr) :
    phase (reset s u) u = .empty ∧
    reset (reset s u) u = reset s u ∧
    (reset s u).encryptedMetrics = s.encryptedMetrics ∧
    (reset s u).encryptedResults = s.encryptedResults := by
  refine ⟨phase_empty_iff.mpr ⟨by simp [reset], by simp [reset]⟩, ?_, rfl, rfl⟩
  ext v
  · rfl
  · rfl
  · simp [reset, Function.update_idem]
  · simp [reset, Function.update_idem]

/-- C2.  State-machine invariant: in every reachable state no identity
is in the illegal flag combination (result ready, nothing submitted);
a successful submit moves exactly the caller from Empty to Submitted, a
successful compute moves exactly the caller from Submitted to Computed
(so a second successful compute within one Submitted period is
impossible), reset moves the caller to Empty, and no operation moves
any other identity's phase. -/
theorem state_machine_transitions (s s' : ContractState) (u : Addr)
    (m : Fin 8 → Nat) (hs : Reachable s) :
    phase s u ≠ .illegal ∧
    (submitMetrics s u m = .ok s' →
      phase s u = .empty ∧ phase s' u = .submitted ∧
      ∀ v, v ≠ u → phase s' v = phase s v) ∧
    (computeReputation s u = .ok s' →
      phase s u = .submitted ∧ phase s' u = .computed ∧
      ∀ v, v ≠ u → phase s' v = phase s v) ∧
    phase (reset s u) u = .empty ∧
    (∀ v, v ≠ u → phase (reset s u) v = phase s v) := by
  refine ⟨?_, ?_, ?_, ?_, ?_⟩
  · intro hill
    obtain ⟨h1, h2⟩ := phase_illegal_iff.mp hill
    have hx := reachable_ready_imp_submitted hs u h2
    simp [h1] at hx
  · intro hok
    obtain ⟨hflag, rfl⟩ := submitMetrics_ok_iff.mp hok
    have hr : s.resultReady u = false := by
      by_contra h2
      have hx := reachable_ready_imp_submitted hs u (by simpa using h2)
      simp [hflag] at hx
    refine ⟨phase_empty_iff.mpr ⟨hflag, hr⟩,
      phase_submitted_iff.mpr ⟨by simp, by simpa using hr⟩, ?_⟩
    intro v hv
    exact phase_congr (by simp [Function.update_noteq hv]) rfl
  · intro hok
    obtain ⟨h1, h2, rfl⟩ := computeReputation_ok_iff.mp hok
    refine ⟨phase_submitted_iff.mpr ⟨h1, h2⟩,
      phase_computed_iff.mpr ⟨by simpa using h1, by simp⟩, ?_⟩
    intro v hv
    exact phase_congr rfl (by simp [Function.update_noteq hv])
  · exact phase_empty_iff.mpr ⟨by simp [reset], by simp [reset]⟩
  · intro v hv
    exact phase_congr (by simp [reset, Function.update_noteq hv])
      (by simp [reset, Function.update_noteq hv])

/-- C2 witness: the transitions at the fresh deployment, with the
submit implication discharged by the concrete scenario submission. -/
theorem state_machine_transitions_witness :
    phase initialState 0 ≠ .illegal ∧
    phase demoSubmitState 0 = .submitted ∧
    phase (reset initialState 0) 0 = .empty := by
  have h2 := state_machine_transitions initialState demoSubmitState 0
    ![5000, 2000, 75, 730, 15, 85, 90, 80] Reachable.init
  exact ⟨h2.1, (h2.2.1 rfl).2.1, h2.2.2.2.1⟩

/-- C7.  Compute precondition errors: in every reachable state,
`computeReputation` reverts with `NoMetricsSubmitted`
("No metrics submitted") exactly when the caller's phase is Empty,
reverts with `AlreadyComputed` ("Already computed") exactly when it is
Computed, and succeeds exactly when it is Submitted. -/
theorem compute_precondition_errors (s : ContractState) (u : Addr)
    (hs : Reachable s) :
    (computeReputation s u = .error .noMetricsSubmitted ↔
      phase s u = .empty) ∧
    (computeReputation s u = .error .alreadyComputed ↔
      phase s u = .computed) ∧
    ((∃ s', computeReputation s u = .ok s') ↔ phase s u = .submitted) := by
  have hready := reachable_ready_imp_submitted hs u
  cases h1 : s.hasSubmitted u <;> cases h2 : s.resultReady u
  · simp [computeReputation, h1, h2, phase]
  · exact absurd (hready h2) (by simp [h1])
  · simp [computeReputation, h1, h2, phase]
  · simp [computeReputation, h1, h2, phase]

/-- C7 witness: at the fresh deployment compute fails
`NoMetricsSubmitted` and the phase is Empty. -/
theorem compute_precondition_errors_witness :
    (computeReputation initialState 0 = .error .noMetricsSubmitted ↔
      phase initialState 0 = .empty) ∧
    (computeReputation initialState 0 = .error .alreadyComputed ↔
      phase initialState 0 = .computed) ∧
    ((∃ s', computeReputation initialState 0 = .ok s') ↔
      phase initialState 0 = .submitted) :=
  compute_precondition_errors initialState 0 Reachable.init

/-- C5.  Per-identity isolation: every operation invoked by identity
`a` (submit, compute, getResult, getAllResults, reset) leaves every
other identity `b`'s stored MetricVector, ReputationVector and flags
unchanged, and the outcome of `a`'s operations depends only on `a`'s
own record (two states agreeing on `a`'s record give identical
results). -/
theorem per_identity_isolation (s t : ContractState) (a b : Addr)
    (m : Fin 8 → Nat) (index : Nat) (hab : b ≠ a) :
    userRecord (applyTx s (submitMetrics s a m)) b = userRecord s b ∧
    userRecord (applyTx s (computeReputation s a)) b = userRecord s b ∧
    userRecord (reset s a) b = userRecord s b ∧
    (userRecord s a = userRecord t a →
      (submitMetrics s a m).map (fun x => userRecord x a) =
        (submitMetrics t a m).map (fun x => userRecord x a) ∧
      (computeReputation s a).map (fun x => userRecord x a) =
        (computeReputation t a).map (fun x => userRecord x a) ∧
      getResult s a index = getResult t a index ∧
      getAllResults s a = getAllResults t a ∧
      hasUserSubmitted s a = hasUserSubmitted t a ∧
      isResultReady s a = isResultReady t a ∧
      userRecord (reset s a) a = userRecord (reset t a) a) := by
  refine ⟨?_, ?_, ?_, ?_⟩
  · by_cases h : s.hasSubmitted a <;>
      simp [submitMetrics, applyTx, h, userRecord, Function.update_noteq hab]
  · by_cases h1 : s.hasSubmitted a <;> by_cases h2 : s.resultReady a <;>
      simp [computeReputation, applyTx, h1, h2, userRecord,
        Function.update_noteq hab]
  · simp [reset, userRecord, Function.update_noteq hab]
  · intro hrec
    simp only [userRecord, Prod.mk.injEq] at hrec
    obtain ⟨e1, e2, e3, e4⟩ := hrec
    refine ⟨?_, ?_, ?_, ?_, ?_, ?_, ?_⟩
    · by_cases h : t.hasSubmitted a <;>
        simp [submitMetrics, Except.map, e1, e2, e3, e4, h, userRecord,
          Function.update_same]
    · by_cases h1 : t.hasSubmitted a <;> by_cases h2 : t.resultReady a <;>
        simp [computeReputation, Except.map, e1, e2, e3, e4, h1, h2,
          userRecord, Function.update_same]
    · simp only [getResult, e2, e4]
    · simp only [getAllResults, e2, e4]
    · simp only [hasUserSubmitted, e3]
    · simp only [isResultReady, e4]
    · simp [reset, userRecord, e1, e2, Function.update_same]

/-- C5 witness: identity 0's operations on the computed scenario state
leave identity 1's record untouched. -/
theorem per_identity_isolation_witness :
    (1 : Addr) ≠ 0 ∧
    userRecord (applyTx demoComputedState
      (submitMetrics demoComputedState 0 (fun _ => 0))) 1 =
      userRecord demoComputedState 1 ∧
    userRecord (reset demoComputedState 0) 1 =
      userRecord demoComputedState 1 := by
  have h5 := per_identity_isolation demoComputedState demoComputedState 0 1
    (fun _ => 0) 0 (by decide)
  exact ⟨by decide, h5.1, h5.2.2.1⟩

/-- C9.  Implicit modular wraparound: submit performs no range
validation (it succeeds for arbitrary plaintexts, storing them mod
2^32), and for a stored `bot_likelihood` plaintext `b > 100` the
baseline authenticity plaintext is `(100 - b) mod 2^32` over `euint32`;
concretely `b = 150` gives `2^32 - 50 = 4294967246`, not a clamped or
rejected value. -/
theorem no_range_validation_wraparound :
    (∀ (s : ContractState) (u : Addr) (m : Fin 8 → Nat),
      s.hasSubmitted u = false →
      ∃ s', submitMetrics s u m = .ok s' ∧
        s'.encryptedMetrics u = fun i => m i % u32) ∧
    (∀ (s : ContractState) (u : Addr),
      s.hasSubmitted u = true → s.resultReady u = false →
      100 < s.encryptedMetrics u 4 → s.encryptedMetrics u 4 < u32 →
      ∃ s', computeReputation s u = .ok s' ∧
        (s'.encryptedResults u 0 : Int) =
          (100 - (s.encryptedMetrics u 4 : Int)) % 2 ^ 32) ∧
    (∃ s', computeReputation wrapSubmitState 0 = .ok s' ∧
      s'.encryptedResults 0 0 = 4294967246) := by
  refine ⟨?_, ?_, ⟨_, rfl, rfl⟩⟩
  · intro s u m hflag
    exact ⟨_, submitMetrics_ok_iff.mpr ⟨hflag, rfl⟩, by
      simp only [Function.update_same]⟩
  · intro s u hsub hrdy hlo hhi
    refine ⟨_, computeReputation_ok_iff.mpr ⟨hsub, hrdy, rfl⟩, ?_⟩
    simp only [Function.update_same]
    show ((baselineScores (s.encryptedMetrics u) 0 : Nat) : Int) = _
    simp only [baselineScores, fheSub, Matrix.cons_val_zero]
    set x := s.encryptedMetrics u 4 with hxdef
    unfold u32 at *
    have hx : x % 2 ^ 32 = x := Nat.mod_eq_of_lt hhi
    rw [hx]
    have h100 : (100 : Nat) % 2 ^ 32 = 100 := by norm_num
    rw [h100]
    have hlt : 100 + (2 ^ 32 - x) < 2 ^ 32 := by omega
    rw [Nat.mod_eq_of_lt hlt]
    have hcast : ((100 + (2 ^ 32 - x) : Nat) : Int) = 100 + 2 ^ 32 - x := by
      omega
    rw [hcast]
    omega

/-- C9 witness: submitting `bot_likelihood = 150` succeeds with no
validation, and computing over it wraps as `(100 - 150) mod 2^32`. -/
theorem no_range_validation_wraparound_witness :
    (∃ s', submitMetrics initialState 0
        ![5000, 2000, 75, 730, 150, 85, 90, 80] = .ok s' ∧
      s'.encryptedMetrics 0 =
        fun i => ![5000, 2000, 75, 730, 150, 85, 90, 80] i % u32) ∧
    (∃ s', computeReputation wrapSubmitState 0 = .ok s' ∧
      (s'.encryptedResults 0 0 : Int) =
        (100 - (wrapSubmitState.encryptedMetrics 0 4 : Int)) % 2 ^ 32) :=
  ⟨no_range_validation_wraparound.1 initialState 0
      ![5000, 2000, 75, 730, 150, 85, 90, 80] rfl,
    no_range_validation_wraparound.2.1 wrapSubmitState 0 (by decide)
      (by decide) (by decide) (by decide)⟩

end Privara

namespace Privara.Engine

/-!
The JS computation engine's extended authenticity formula
(`computeReputation` in the FHE computation-engine worker).  JS numbers
here are integers; `Math.floor` of an integer quotient is `Int.fdiv`.
-/

/-- Scale factor: `10000 = 1.0`. -/
def SCALE : Int := 10000

/-- The guarded follower ratio of the engine:
`following_count > 0 ? Math.floor(follower_count * SCALE / following_count) : 0`. -/
def followerRatioOf (follower_count following_count : Int) : Int :=
  if 0 < following_count then (follower_count * SCALE).fdiv following_count
  else 0

/-- `authenticityPart1 = Math.floor(followerRatio * 40 / 100)`. -/
def authenticityPart1 (fr : Int) : Int := (fr * 40).fdiv 100

/-- `botInverse = 100 * SCALE - bot_likelihood` (bot already in SCALE
units). -/
def botInverse (bot_likelihood : Int) : Int := 100 * SCALE - bot_likelihood

/-- `authenticityPart2 = Math.floor(botInverse * 30 / 100)`. -/
def authenticityPart2 (bot_likelihood : Int) : Int :=
  (botInverse bot_likelihood * 30).fdiv 100

/-- `ageScore = Math.floor(account_age_days * 100 * SCALE / 365)`. -/
def ageScore (account_age_days : Int) : Int :=
  (account_age_days * 100 * SCALE).fdiv 365

/-- `authenticityPart3 = Math.floor(ageScore * 30 / 100)`. -/
def authenticityPart3 (account_age_days : Int) : Int :=
  (ageScore account_age_days * 30).fdiv 100

/-- The engine's extended authenticity score:
`Math.min(100 * SCALE, part1 + part2 + part3)`. -/
def engineAuthenticity (follower_count following_count bot_likelihood
    account_age_days : Int) : Int :=
  min (100 * SCALE)
    (authenticityPart1 (followerRatioOf follower_count following_count) +
      authenticityPart2 bot_likelihood +
      authenticityPart3 account_age_days)

/-- C6.  Division-by-zero guard in the extended profile: the follower
ratio is `floor(a * SCALE / b)` for every `b > 0` and `0` when
`b = 0`, so the extended authenticity for a user with following count
0 is total (no division by zero) and uses 0 for the follower-ratio
term. -/
theorem division_guard_extended :
    (∀ a b : Int, 0 < b → followerRatioOf a b = (a * SCALE).fdiv b) ∧
    (∀ a : Int, followerRatioOf a 0 = 0) ∧
    (∀ fc bot age : Int, engineAuthenticity fc 0 bot age =
      min (100 * SCALE)
        (authenticityPart2 bot + authenticityPart3 age)) := by
  refine ⟨fun a b hb => by simp [followerRatioOf, hb], fun a => rfl, ?_⟩
  intro fc bot age
  simp [engineAuthenticity, followerRatioOf, authenticityPart1]

/-- C6 witness: the ratio at the engine's documented example
`followers = 1250, following = 320`, and at following count 0. -/
theorem division_guard_extended_witness :
    (0 : Int) < 320 ∧
    followerRatioOf 1250 320 = ((1250 : Int) * SCALE).fdiv 320 ∧
    followerRatioOf 1250 0 = 0 :=
  ⟨by norm_num, division_guard_extended.1 1250 320 (by norm_num),
    division_guard_extended.2.1 1250⟩

end Privara.Engine

namespace Privara.Frontend

/-- The frontend's `TwitterMetrics` record; JS numbers are modelled as
rationals (only order comparisons occur). -/
structure TwitterMetrics where
  follower_count : ℚ
  following_count : ℚ
  engagement_rate : ℚ
  account_age_days : ℚ
  bot_likelihood : ℚ
  posting_frequency : ℚ
  follower_quality : ℚ
  growth_score : ℚ

/-- `validateMetrics` of the frontend encryption utilities: the exact
conjunction of comparisons of the source. -/
def validateMetrics (m : TwitterMetrics) : Bool :=
  decide (0 ≤ m.follower_count) &&
  decide (0 ≤ m.following_count) &&
  decide (0 ≤ m.engagement_rate) && decide (m.engagement_rate ≤ 100) &&
  decide (0 ≤ m.account_age_days) &&
  decide (0 ≤ m.bot_likelihood) && decide (m.bot_likelihood ≤ 100) &&
  decide (0 ≤ m.posting_frequency) && decide (m.posting_frequency ≤ 1) &&
  decide (0 ≤ m.follower_quality) && decide (m.follower_quality ≤ 100) &&
  decide (0 ≤ m.growth_score) && decide (m.growth_score ≤ 100)

/-- C10.  Asymmetric input validation: `validateMetrics` accepts
exactly the records with every field nonnegative, engagement_rate,
bot_likelihood, follower_quality and growth_score each at most 100,
and posting_frequency at most 1; hence every record whose
posting_frequency lies in (1, 100] — a valid percentage elsewhere in
the pipeline — is rejected. -/
theorem validate_metrics_spec :
    (∀ m : TwitterMetrics, validateMetrics m = true ↔
      (0 ≤ m.follower_count ∧ 0 ≤ m.following_count ∧
       0 ≤ m.engagement_rate ∧ 0 ≤ m.account_age_days ∧
       0 ≤ m.bot_likelihood ∧ 0 ≤ m.posting_frequency ∧
       0 ≤ m.follower_quality ∧ 0 ≤ m.growth_score ∧
       m.engagement_rate ≤ 100 ∧ m.bot_likelihood ≤ 100 ∧
       m.follower_quality ≤ 100 ∧ m.growth_score ≤ 100 ∧
       m.posting_frequency ≤ 1)) ∧
    (∀ m : TwitterMetrics, 1 < m.posting_frequency →
      m.posting_frequency ≤ 100 → validateMetrics m = false) := by
  have hiff : ∀ m : TwitterMetrics, validateMetrics m = true ↔
      (0 ≤ m.follower_count ∧ 0 ≤ m.following_count ∧
       0 ≤ m.engagement_rate ∧ 0 ≤ m.account_age_days ∧
       0 ≤ m.bot_likelihood ∧ 0 ≤ m.posting_frequency ∧
       0 ≤ m.follower_quality ∧ 0 ≤ m.growth_score ∧
       m.engagement_rate ≤ 100 ∧ m.bot_likelihood ≤ 100 ∧
       m.follower_quality ≤ 100 ∧ m.growth_score ≤ 100 ∧
       m.posting_frequency ≤ 1) := by
    intro m
    simp only [validateMetrics, Bool.and_eq_true, decide_eq_true_eq]
    tauto
  refine ⟨hiff, ?_⟩
  intro m h1 _h2
  cases hv : validateMetrics m
  · rfl
  · exact absurd ((hiff m).mp hv).2.2.2.2.2.2.2.2.2.2.2.2 (by linarith)

/-- C10 witness: a record with posting_frequency `3/2 ∈ (1, 100]` and
all other fields in range is rejected. -/
theorem validate_metrics_spec_witness :
    1 < (3 / 2 : ℚ) ∧ (3 / 2 : ℚ) ≤ 100 ∧
    validateMetrics ⟨1000, 500, 50, 365, 10, 3 / 2, 80, 60⟩ = false :=
  ⟨by norm_num, by norm_num,
    validate_metrics_spec.2 ⟨1000, 500, 50, 365, 10, 3 / 2, 80, 60⟩
      (by norm_num) (by norm_num)⟩

end Privara.Frontend

namespace Privara.Wire

/-!
The frontend's byte-oriented wire payload (`createHexPayload` /
`parseHexPayload` in the frontend encryption utilities).  `Uint8Array`
contents are lists of naturals below 256; hex strings are Lean strings.
-/

/-- One lowercase hex digit, as `Number.prototype.toString(16)`
produces for a nibble. -/
def hexDigitChar (n : Nat) : Char :=
  if n < 10 then Char.ofNat (48 + n) else Char.ofNat (87 + n)

/-- `b.toString(16).padStart(2, '0')` for a byte `b < 256`: exactly two
lowercase hex digits. -/
def byteToHex (b : Nat) : List Char :=
  [hexDigitChar (b / 16), hexDigitChar (b % 16)]

/-- The byte content of the payload `Uint8Array`: a 4-byte header
(`payload[0] = handles.length`, a `Uint8Array` element assignment
truncating mod 256, the other three header bytes left at their zero
initialisation), then the concatenated handles starting at offset 4,
then the proof. -/
def payloadBytes (handles : List (List Nat)) (pf : List Nat) : List Nat :=
  handles.length % 256 :: 0 :: 0 :: 0 :: (handles.flatten ++ pf)

/-- `createHexPayload`: `'0x' +` the hex encoding of the payload
bytes. -/
def createHexPayload (handles : List (List Nat)) (pf : List Nat) : String :=
  String.mk ('0' :: 'x' :: (payloadBytes handles pf).flatMap byteToHex)

/-- The numeric value `parseInt` assigns to a single hex digit, `none`
for a non-digit. -/
def hexVal? (c : Char) : Option Nat :=
  if 48 ≤ c.toNat ∧ c.toNat ≤ 57 then some (c.toNat - 48)
  else if 97 ≤ c.toNat ∧ c.toNat ≤ 102 then some (c.toNat - 87)
  else if 65 ≤ c.toNat ∧ c.toNat ≤ 70 then some (c.toNat - 55)
  else none

/-- `parseInt(two-char slice, 16)` as stored into a `Uint8Array`:
both digits valid gives the byte, a valid first digit alone gives its
value (parseInt stops at the first non-digit), otherwise `NaN` stores
0. -/
def pairByte (c1 c2 : Char) : Nat :=
  match hexVal? c1, hexVal? c2 with
  | some v1, some v2 => 16 * v1 + v2
  | some v1, none => v1
  | none, _ => 0

/-- The byte-decoding loop of `parseHexPayload` (`i += 2`; a trailing
lone character writes out of bounds and is dropped). -/
def hexToBytes : List Char → List Nat
  | c1 :: c2 :: rest => pairByte c1 c2 :: hexToBytes rest
  | _ => []

/-- `parseHexPayload`: strips a leading `0x`, decodes hex to bytes,
reads the handle count from byte 0, slices 32-byte handles starting at
offset 4, and takes the remainder as the proof. -/
def parseHexPayload (s : String) : List (List Nat) × List Nat :=
  let hx := if s.data.take 2 = ['0', 'x'] then s.data.drop 2 else s.data
  let bytes := hexToBytes hx
  let numHandles := bytes.headD 0
  ((List.range numHandles).map
      (fun i => (bytes.drop (4 + 32 * i)).take 32),
    bytes.drop (4 + 32 * numHandles))

/-- The wire-payload format exactly as the spec words it — `0x`, a
ONE-byte handle count, then immediately the concatenated handles, then
the proof, hex-encoded.  Stated only to be compared against
`createHexPayload`. -/
def specWirePayload (handles : List (List Nat)) (pf : List Nat) : String :=
  String.mk ('0' :: 'x' ::
    ((handles.length % 256 :: (handles.flatten ++ pf)).flatMap byteToHex))

/-- C8 counterexample: for one 32-byte handle and a 1-byte proof the
produced payload differs from the spec's 1-byte-header format (the
code emits a 4-byte header: count byte followed by three zero bytes),
and parsing a payload in the spec's format does not recover the
handles and proof. -/
theorem wire_counterexample :
    createHexPayload [List.replicate 32 170] [187] ≠
      specWirePayload [List.replicate 32 170] [187] ∧
    parseHexPayload (specWirePayload [List.replicate 32 170] [187]) ≠
      ([List.replicate 32 170], [187]) := by
  refine ⟨?_, ?_⟩ <;> decide

lemma hexVal_hexDigitChar {d : Nat} (hd : d < 16) :
    hexVal? (hexDigitChar d) = some d := by
  interval_cases d <;> decide

lemma hexToBytes_byteToHex (b : Nat) (hb : b < 256) (rest : List Char) :
    hexToBytes (byteToHex b ++ rest) = b :: hexToBytes rest := by
  show hexToBytes (hexDigitChar (b / 16) :: hexDigitChar (b % 16) :: rest) = _
  rw [hexToBytes]
  congr 1
  unfold pairByte
  rw [hexVal_hexDigitChar (by omega), hexVal_hexDigitChar (by omega)]
  show 16 * (b / 16) + b % 16 = b
  omega

lemma hexToBytes_flatMap (bytes : List Nat) (hb : ∀ b ∈ bytes, b < 256) :
    hexToBytes (bytes.flatMap byteToHex) = bytes := by
  induction bytes with
  | nil => rfl
  | cons b rest ih =>
      rw [List.flatMap_cons, hexToBytes_byteToHex b (hb b (by simp)),
        ih (fun x hx => hb x (by simp [hx]))]

lemma flatten_length (L : List (List Nat)) (hfix : ∀ l ∈ L, l.length = 32) :
    L.flatten.length = 32 * L.length := by
  induction L with
  | nil => simp
  | cons l rest ih =>
      rw [List.flatten_cons, List.length_append, hfix l (by simp),
        ih (fun x hx => hfix x (by simp [hx])), List.length_cons]
      ring

lemma flatten_drop_take (L : List (List Nat)) (pf : List Nat)
    (hfix : ∀ l ∈ L, l.length = 32) :
    ∀ (i : Nat) (hi : i < L.length),
      ((L.flatten ++ pf).drop (32 * i)).take 32 = L.get ⟨i, hi⟩ := by
  induction L with
  | nil => intro i hi; simp at hi
  | cons l rest ih =>
      intro i hi
      have hl : l.length = 32 := hfix l (by simp)
      cases i with
      | zero =>
          simp only [Nat.mul_zero, List.drop_zero, List.flatten_cons,
            List.append_assoc]
          rw [← hl, List.take_left]
          rfl
      | succ j =>
          rw [List.flatten_cons, List.append_assoc]
          have h32 : 32 * (j + 1) = l.length + 32 * j := by rw [hl]; ring
          rw [h32, List.drop_append]
          exact ih (fun x hx => hfix x (by simp [hx])) j (by simpa using hi)

/-- C8 amended: for up to 255 fixed-size (32-byte) handles and a proof
of bytes, the produced payload is `0x` plus the hex encoding of a
FOUR-byte header — the handle count in the first byte, three zero
bytes after it — followed by the concatenated handles and the proof;
and parsing that payload recovers exactly the original handles and
proof. -/
theorem wire_roundtrip (handles : List (List Nat)) (pf : List Nat)
    (hlen : handles.length ≤ 255)
    (hfix : ∀ l ∈ handles, l.length = 32)
    (hbyte : ∀ l ∈ handles, ∀ b ∈ l, b < 256)
    (hpf : ∀ b ∈ pf, b < 256) :
    createHexPayload handles pf =
      String.mk ('0' :: 'x' ::
        ((handles.length :: 0 :: 0 :: 0 ::
          (handles.flatten ++ pf)).flatMap byteToHex)) ∧
    parseHexPayload (createHexPayload handles pf) = (handles, pf) := by
  have hmod : handles.length % 256 = handles.length :=
    Nat.mod_eq_of_lt (by omega)
  constructor
  · unfold createHexPayload payloadBytes
    rw [hmod]
  · have hall : ∀ b ∈ payloadBytes handles pf, b < 256 := by
      intro b hbmem
      unfold payloadBytes at hbmem
      simp only [List.mem_cons, List.mem_append] at hbmem
      rcases hbmem with h | h | h | h | h | h
      · omega
      · omega
      · omega
      · omega
      · obtain ⟨y, hy, hby⟩ := List.mem_flatten.mp h
        exact hbyte y hy b hby
      · exact hpf b h
    have hx : (createHexPayload handles pf).data =
        '0' :: 'x' :: (payloadBytes handles pf).flatMap byteToHex := rfl
    unfold parseHexPayload
    rw [hx]
    have hcond : List.take 2
        ('0' :: 'x' :: (payloadBytes handles pf).flatMap byteToHex) =
        ['0', 'x'] := rfl
    rw [hcond, if_pos rfl]
    have hdrop2 : List.drop 2
        ('0' :: 'x' :: (payloadBytes handles pf).flatMap byteToHex) =
        (payloadBytes handles pf).flatMap byteToHex := rfl
    rw [hdrop2]
    simp only [hexToBytes_flatMap _ hall]
    unfold payloadBytes
    rw [hmod]
    have hdropper : ∀ k, List.drop (4 + k)
        (handles.length :: 0 :: 0 :: 0 :: (handles.flatten ++ pf)) =
        List.drop k (handles.flatten ++ pf) := by
      intro k
      rw [show 4 + k = k + 1 + 1 + 1 + 1 by omega]
      simp only [List.drop_succ_cons]
    simp only [List.headD_cons, hdropper]
    refine Prod.ext ?_ ?_
    · refine List.ext_getElem (by simp) ?_
      intro i h1 h2
      have hi : i < handles.length := by simpa using h2
      have hget := flatten_drop_take handles pf hfix i hi
      simp only [List.getElem_map, List.getElem_range]
      rw [hget]
      rfl
    · rw [← flatten_length handles hfix, List.drop_left]

/-- C8 amended witness: concrete roundtrip for one 32-byte handle and
a one-byte proof. -/
theorem wire_roundtrip_witness :
    ([List.replicate 32 170] : List (List Nat)).length ≤ 255 ∧
    parseHexPayload (createHexPayload [List.replicate 32 170] [187]) =
      ([List.replicate 32 170], [187]) :=
  ⟨by decide,
    (wire_roundtrip [List.replicate 32 170] [187] (by decide) (by decide)
      (by decide) (by decide)).2⟩

end Privara.Wire
